import Mathlib

/-
Verification of the nexus-fetch coordinate model and resolution logic.

Shallow embedding of main.go.  Go strings are Lean String values (String.data
is the character list); Go strings.Split with a one-character separator is
embedded as splitOnChar; code paths that end in log.Fatal / os.Exit are
embedded as Except values carrying the process exit code, and the Go panic
in contentDisposition (indexing a nil regexp match) is embedded as Option.none.
-/

/- ## Go string helpers -/

/-- Model of Go strings.Split(s, sep) for a one-character separator sep:
splits around each instance of sep; splitting the empty string yields one
empty field, never the empty list. -/
def splitOnChar (sep : Char) : List Char → List (List Char)
  | [] => [[]]
  | c :: cs =>
    if c = sep then [] :: splitOnChar sep cs
    else
      match splitOnChar sep cs with
      | [] => [c] :: []
      | h :: t => (c :: h) :: t

/-- Go strings.Split on Lean String values (one-character separator). -/
def goSplit (sep : Char) (s : String) : List String :=
  (splitOnChar sep s.data).map String.mk

/-- p is a prefix of l, as a computable Bool. -/
def startsWithL : List Char → List Char → Bool
  | [], _ => true
  | _ :: _, [] => false
  | p :: ps, c :: cs => p == c && startsWithL ps cs

/-- Model of Go strings.HasSuffix(s, suff). -/
def hasSuffix (s suff : String) : Bool :=
  startsWithL suff.data.reverse s.data.reverse

/-- Model of Go strings.Replace(s, ".", "/", -1): both patterns are single
characters, so replacing every occurrence is a character map. -/
def replaceDotSlash (s : String) : String :=
  String.mk (s.data.map (fun c => if c = '.' then '/' else c))

/- ## Data model (main.go types) -/

/-- NexusInstance holds coordinates of a Nexus installation. -/
structure NexusInstance where
  Protocol : String
  Server : String
  Port : String
  Contextroot : String
  Username : String
  Password : String
deriving DecidableEq

/-- NexusRepository holds coordinates of a Nexus repository. -/
structure NexusRepository where
  toNexusInstance : NexusInstance
  RepositoryID : String
deriving DecidableEq

/-- Gav are the standard Maven coordinates. -/
structure Gav where
  Group : String
  Artifact : String
  Version : String
  Classifier : String
  Packaging : String
deriving DecidableEq

/-- Fqa holds coordinates to a fully qualified artifact. -/
structure Fqa where
  toNexusRepository : NexusRepository
  toGav : Gav
deriving DecidableEq

/-- One artifactLink element of the search response (extension, classifier). -/
structure ArtifactLink where
  Packaging : String
  Classifier : String
deriving DecidableEq

/-- One artifactHit element of the search response. -/
structure ArtifactHit where
  RepositoryID : String
  ArtifactLinks : List ArtifactLink
deriving DecidableEq

/-- One data/artifact group of the search response. -/
structure ArtifactGroup where
  Group : String
  Artifact : String
  Version : String
  ArtifactHits : List ArtifactHit
deriving DecidableEq

/-- searchNGResponse, the deserialized Nexus search payload. -/
structure searchNGResponse where
  Count : Int
  From : Int
  TotalCount : Int
  TooManyResults : Bool
  Artifacts : List ArtifactGroup
deriving DecidableEq

/- ## Coordinate model operations -/

/-- ConciseNotation of main.go: renders a Gav in concise notation, writing a
separator only when a later field is present, and the packaging after an
at-sign only when non-empty (mirrors the strings.Builder sequence of the Go
method; the Go name ConciseNotation is kept in spirit as conciseNotationOf). -/
def Gav.conciseNotationOf (a : Gav) : String :=
  let sb := ""
  let sb := if 0 < a.Group.length then sb ++ a.Group else sb
  let sb := if 0 < a.Artifact.length ∨ 0 < a.Version.length ∨ 0 < a.Classifier.length
            then sb ++ ":" else sb
  let sb := if 0 < a.Artifact.length then sb ++ a.Artifact else sb
  let sb := if 0 < a.Version.length ∨ 0 < a.Classifier.length then sb ++ ":" else sb
  let sb := if 0 < a.Version.length then sb ++ a.Version else sb
  let sb := if 0 < a.Classifier.length then sb ++ ":" ++ a.Classifier else sb
  let sb := if 0 < a.Packaging.length then sb ++ "@" ++ a.Packaging else sb
  sb

/-- First step of Concise in main.go: split on at-sign; when more than one
field results, the second field is the packaging and the first replaces the
working string, otherwise the packaging stays empty and the input is kept. -/
def packagingSplit (c : String) : String × String :=
  match goSplit '@' c with
  | c0 :: c1 :: _ => (c1, c0)
  | _ => ("", c)

/-- Concise of main.go: converts concise notation into a Gav.  The switch on
the number of colon-separated segments assigns Group, Artifact, Version,
Classifier positionally for 1 to 4 segments; any other segment count leaves
every positional field empty (the Go switch has no default case). -/
def Concise (c : String) : Gav :=
  let pc := packagingSplit c
  match goSplit ':' pc.2 with
  | [g] => ⟨g, "", "", "", pc.1⟩
  | [g, a] => ⟨g, a, "", "", pc.1⟩
  | [g, a, v] => ⟨g, a, v, "", pc.1⟩
  | [g, a, v, cl] => ⟨g, a, v, cl, pc.1⟩
  | _ => ⟨"", "", "", "", pc.1⟩

/-- Filename of main.go: artifact-version, then -classifier when non-empty;
the value receiver's Packaging is defaulted to jar on the local copy only
(embedded as let-shadowing, exactly the Go value-receiver semantics). -/
def Gav.Filename (a : Gav) : String :=
  let filename := a.Artifact ++ "-" ++ a.Version
  let filename := if a.Classifier ≠ "" then filename ++ "-" ++ a.Classifier else filename
  let a := if a.Packaging = "" then { a with Packaging := "jar" } else a
  filename ++ "." ++ a.Packaging

/-- DefaultLayout of main.go: group with dots replaced by slashes, then
slash-joined artifact, version and filename. -/
def Gav.DefaultLayout (a : Gav) : String :=
  replaceDotSlash a.Group ++ "/" ++ a.Artifact ++ "/" ++ a.Version ++ "/" ++ a.Filename

/-- fullySpecified of main.go. -/
def fullySpecified (fqa : Fqa) : Bool :=
  decide (0 < fqa.toNexusRepository.RepositoryID.length) &&
  decide (0 < fqa.toGav.Group.length) &&
  decide (0 < fqa.toGav.Artifact.length) &&
  decide (0 < fqa.toGav.Version.length)

/- ## URL builders -/

/-- baseUrl of main.go.  The Go code formats protocol://server:port/contextroot
and round-trips it through url.Parse / URL.String; that round trip is embedded
as the formatted string itself (net/url is an external collaborator). -/
def baseUrl (repo : NexusRepository) : String :=
  repo.toNexusInstance.Protocol ++ "://" ++ repo.toNexusInstance.Server ++ ":" ++
    repo.toNexusInstance.Port ++ "/" ++ repo.toNexusInstance.Contextroot

/-- ContentURL of main.go. -/
def Fqa.ContentURL (a : Fqa) : String :=
  baseUrl a.toNexusRepository ++ "content/repositories/" ++
    a.toNexusRepository.RepositoryID ++ "/" ++ a.toGav.DefaultLayout

/-- RedirectURL of main.go. -/
def Fqa.RedirectURL (a : Fqa) : String :=
  baseUrl a.toNexusRepository ++ "service/local/artifact/maven/redirect?r=" ++
    a.toNexusRepository.RepositoryID ++ "&g=" ++ a.toGav.Group ++ "&a=" ++
    a.toGav.Artifact ++ "&v=" ++ a.toGav.Version ++ "&p=" ++ a.toGav.Packaging

/-- The per-result URL choice in the fetch loop of main: a Version with the
literal SNAPSHOT suffix goes through RedirectURL, anything else through
ContentURL. -/
def fetchURL (a : Fqa) : String :=
  if hasSuffix a.toGav.Version "SNAPSHOT" then a.RedirectURL else a.ContentURL

/- ## Search result projection and the fetch loop -/

/-- The Fqa value appended by locations for one (group, hit, link) triple. -/
def linkFqa (inst : NexusInstance) (a : ArtifactGroup) (hit : ArtifactHit)
    (link : ArtifactLink) : Fqa :=
  { toNexusRepository := { toNexusInstance := inst, RepositoryID := hit.RepositoryID },
    toGav := { Group := a.Group, Artifact := a.Artifact, Version := a.Version,
               Classifier := link.Classifier, Packaging := link.Packaging } }

/-- locations of main.go: three nested loops appending one Fqa per artifact
link to the accumulator, embedded as nested left folds. -/
def locations (res : searchNGResponse) (inst : NexusInstance) : List Fqa :=
  res.Artifacts.foldl
    (fun ls a =>
      a.ArtifactHits.foldl
        (fun ls hit =>
          hit.ArtifactLinks.foldl
            (fun ls link => ls ++ [linkFqa inst a hit link]) ls)
        ls)
    []

/-- The fetch loop of main over the projected list: pom entries are skipped
before any URL is built; for the rest, when fetching is enabled, one
(artifact, fetch URL) action is emitted (the action stands for the http.Get
and the subsequent persist). -/
def fetchPlan (fetch : Bool) (ls : List Fqa) : List (Fqa × String) :=
  ls.foldl
    (fun acc a =>
      if a.toGav.Packaging = "pom" then acc
      else if fetch then acc ++ [(a, fetchURL a)]
      else acc)
    []

/- ## CLI argument selection (main) -/

/-- The switch on flag.NArg() in main: zero positional arguments build the Gav
from the five coordinate flags, exactly one positional argument is parsed as
concise notation (the flag values are not consulted), and any other count
calls flag.Usage, which exits with code 2.  Except.error carries the exit
code. -/
def selectGav (args : List String)
    (group artifact version classifier packaging : String) : Except Nat Gav :=
  match args with
  | [] => Except.ok ⟨group, artifact, version, classifier, packaging⟩
  | [c] => Except.ok (Concise c)
  | _ => Except.error 2

/- ## Fully-specified path: HTTP status handling -/

/-- The status check inside content of main.go: any response status other
than 200 reaches log.Fatalf, i.e. the process exits with code 1; only a 200
response is returned to the caller. -/
def contentStatusGate (status : Nat) : Except Nat Nat :=
  if status ≠ 200 then Except.error 1 else Except.ok status

/-- The status check inside resolve of main.go (identical to the one in
content). -/
def resolveStatusGate (status : Nat) : Except Nat Nat :=
  if status ≠ 200 then Except.error 1 else Except.ok status

/-- Exit code of the fully-specified path of main as a function of the HTTP
status the server answers: content (when fetching) or resolve (otherwise) is
called first, then main compares the returned status against 404 under the
abortOnNotFound flag and exits 4 or 0. -/
def fullySpecifiedExit (fetch abortOnNotFound : Bool) (status : Nat) : Nat :=
  match (if fetch then contentStatusGate status else resolveStatusGate status) with
  | Except.error code => code
  | Except.ok st => if st == 404 && abortOnNotFound then 4 else 0

/- ## Filename resolver (content-disposition) -/

/-- The literal part of the regular expression in contentDisposition. -/
def cdMarker : List Char :=
  String.data "attachment; filename=\""

/-- The capture of the greedy group in the contentDisposition pattern,
applied to the text after the literal part: the dot does not match a
newline, and the greedy group extends to the last double quote on the
line; none when no closing quote exists, i.e. no match. -/
def cdCapture (rest : List Char) : Option (List Char) :=
  let line := rest.takeWhile (fun c => c ≠ '\n')
  match line.reverse.dropWhile (fun c => c ≠ '"') with
  | [] => none
  | _ :: t => some t.reverse

/-- Leftmost match of the contentDisposition pattern over the header value:
scan for the literal part, then capture up to the last closing quote on the
line; none when the pattern matches nowhere. -/
def cdScan : List Char → Option (List Char)
  | [] => none
  | c :: cs =>
    if startsWithL cdMarker (c :: cs) then
      match cdCapture ((c :: cs).drop cdMarker.length) with
      | some cap => some cap
      | none => cdScan cs
    else cdScan cs

/-- contentDisposition of main.go, as a function of the Content-Disposition
header value (the empty string when the header is absent).  The Go code
indexes ss at 1 on the result of FindStringSubmatch, which is nil when the
pattern does not match, so a missing match is a runtime panic: embedded as
none. -/
def contentDisposition (v : String) : Option String :=
  (cdScan v.data).map String.mk

/-- filename of main.go, the output-filename precedence chain, as a function
of the user-supplied name, the Content-Disposition header value of the
response, and the Gav.  none propagates the panic of contentDisposition. -/
def filename (userSupplied : String) (header : String) (gav : Gav) : Option String :=
  if 0 < userSupplied.length then some userSupplied
  else
    match contentDisposition header with
    | none => none
    | some f => if 0 < f.length then some f else some gav.Filename

/- ## General helper lemmas -/

/-- Rebuilding a string from its character list is the identity. -/
theorem mk_data (s : String) : String.mk s.data = s := by
  cases s
  rfl

/-- Appending the empty string on the right is the identity. -/
theorem append_empty (sb : String) : sb ++ "" = sb := by
  cases sb with
  | mk l =>
    show String.mk (l ++ []) = String.mk l
    rw [List.append_nil]

/-- A write guarded by non-emptiness appends the string unconditionally:
appending the empty string is the identity. -/
theorem write_guard (sb s : String) : (if 0 < s.length then sb ++ s else sb) = sb ++ s := by
  by_cases h : 0 < s.length
  · rw [if_pos h]
  · rw [if_neg h]
    have hs : s = "" := by
      cases s with
      | mk m =>
        cases m with
        | nil => rfl
        | cons c cs => exact absurd (Nat.succ_pos cs.length) h
    rw [hs, append_empty]

/-- Splitting a separator-free list yields the single original field. -/
theorem splitOnChar_no_sep (sep : Char) (l : List Char) (h : sep ∉ l) :
    splitOnChar sep l = [l] := by
  induction l with
  | nil => rfl
  | cons c cs ih =>
    have hc : ¬ c = sep := fun e => h (e ▸ List.mem_cons_self c cs)
    have hcs : sep ∉ cs := fun m => h (List.mem_cons_of_mem c m)
    simp only [splitOnChar, if_neg hc, ih hcs]

/-- Splitting around the first separator occurrence: a separator-free prefix
becomes the first field, the rest is split recursively. -/
theorem splitOnChar_append (sep : Char) (xs ys : List Char) (h : sep ∉ xs) :
    splitOnChar sep (xs ++ sep :: ys) = xs :: splitOnChar sep ys := by
  induction xs with
  | nil => simp [splitOnChar]
  | cons c cs ih =>
    have hc : ¬ c = sep := fun e => h (e ▸ List.mem_cons_self c cs)
    have hcs : sep ∉ cs := fun m => h (List.mem_cons_of_mem c m)
    simp only [List.cons_append, splitOnChar, List.append_eq, if_neg hc, ih hcs]

/-- goSplit on a separator-free string yields the single original string. -/
theorem goSplit_no_sep (sep : Char) (s : String) (h : sep ∉ s.data) :
    goSplit sep s = [s] := by
  unfold goSplit
  rw [splitOnChar_no_sep sep s.data h]
  simp [mk_data]

/-- A field is free of the two concise-notation separator characters. -/
def sepFree (s : String) : Prop := ':' ∉ s.data ∧ '@' ∉ s.data

instance (s : String) : Decidable (sepFree s) := by
  unfold sepFree
  infer_instance

/- ## C1, C2, C4, C8, C10 -/

/-- C1: the claim says a missing or ill-formed Content-Disposition header is
treated as unavailable and the resolver falls through to the computed
Filename, returning normally.  The code instead panics there: contentDisposition
indexes position 1 of the nil result of FindStringSubmatch.  At the failing
input (no user-supplied name, absent header) the resolver is the panic value
none, while the claim expects the computed name a-v.jar; the user-supplied
branch of the claim does hold. -/
theorem C1_missing_header_panics :
    filename "" "" ⟨"g", "a", "v", "", ""⟩ = none ∧
    Gav.Filename ⟨"g", "a", "v", "", ""⟩ = "a-v.jar" ∧
    filename "user.jar" "" ⟨"g", "a", "v", "", ""⟩ = some "user.jar" ∧
    filename "" "inline" ⟨"g", "a", "v", "", ""⟩ = none := by
  constructor
  · rfl
  · constructor
    · rfl
    · constructor <;> rfl

/-- C2: the claim says a 404 on the fully-specified path exits 4 when
abortOnNotFound is set and is non-fatal otherwise.  In the code both content
and resolve call log.Fatalf on any status other than 200, so a 404 always
terminates the process with exit code 1, on every combination of the fetch
and abortOnNotFound flags; the exit-4 and exit-0 branches of main are
unreachable for a 404. -/
theorem C2_notfound_always_exits_one :
    fullySpecifiedExit true true 404 = 1 ∧ fullySpecifiedExit true false 404 = 1 ∧
    fullySpecifiedExit false true 404 = 1 ∧ fullySpecifiedExit false false 404 = 1 ∧
    fullySpecifiedExit true true 200 = 0 ∧ fullySpecifiedExit false false 200 = 0 := by
  refine ⟨rfl, rfl, rfl, rfl, rfl, rfl⟩

/-- C4: in the fetch loop, a Version carrying the literal SNAPSHOT suffix is
fetched through the redirect REST URL with the r, g, a, v, p query
parameters, and any other Version through the direct content URL built from
the repository id and the default layout. -/
theorem C4_snapshot_routing (a : Fqa) :
    fetchURL a =
      if hasSuffix a.toGav.Version "SNAPSHOT" then
        baseUrl a.toNexusRepository ++ "service/local/artifact/maven/redirect?r=" ++
          a.toNexusRepository.RepositoryID ++ "&g=" ++ a.toGav.Group ++ "&a=" ++
          a.toGav.Artifact ++ "&v=" ++ a.toGav.Version ++ "&p=" ++ a.toGav.Packaging
      else
        baseUrl a.toNexusRepository ++ "content/repositories/" ++
          a.toNexusRepository.RepositoryID ++ "/" ++ a.toGav.DefaultLayout := by
  unfold fetchURL Fqa.RedirectURL Fqa.ContentURL
  by_cases h : hasSuffix a.toGav.Version "SNAPSHOT" = true
  · rw [if_pos h]
  · rw [if_neg h]

/-- C8: the claim says supplying both a positional concise-notation argument
and discrete coordinate flags is a usage error.  It is not: with exactly one
positional argument the switch in main takes the NArg-1 branch, parses the
positional and never consults the flag values, so conflicting flags are
silently ignored and the run proceeds. -/
theorem C8_counterexample :
    selectGav ["x:y:z"] "g0" "a0" "v0" "c0" "p0" =
      Except.ok ⟨"x", "y", "z", "", ""⟩ := rfl

/-- C8 (amended): one positional argument always wins and the discrete
coordinate flag values are ignored rather than rejected; a usage error
(exit code 2 via flag.Usage) occurs only when two or more positional
arguments are supplied. -/
theorem C8_amended_positional_wins (s g a v cl p g2 a2 v2 cl2 p2 : String) :
    selectGav [s] g a v cl p = Except.ok (Concise s) ∧
    selectGav [s] g a v cl p = selectGav [s] g2 a2 v2 cl2 p2 ∧
    selectGav [s, s] g a v cl p = Except.error 2 := ⟨rfl, rfl, rfl⟩

/-- C10: when the text before the at-sign splits on the colon into more than
four segments, the switch in Concise falls through every case, so Group,
Artifact, Version and Classifier all stay empty and only the Packaging taken
from behind the at-sign may be set. -/
theorem C10_overlong_input_drops_fields (s : String)
    (h : 4 < (goSplit ':' (packagingSplit s).2).length) :
    Concise s = ⟨"", "", "", "", (packagingSplit s).1⟩ := by
  have h5 : ∃ g1 g2 g3 g4 g5 rest,
      goSplit ':' (packagingSplit s).2 = g1 :: g2 :: g3 :: g4 :: g5 :: rest := by
    rcases hl : goSplit ':' (packagingSplit s).2 with _ | ⟨g1, _ | ⟨g2, _ | ⟨g3, _ | ⟨g4, _ | ⟨g5, rest⟩⟩⟩⟩⟩ <;>
      rw [hl] at h <;> simp only [List.length_nil, List.length_cons] at h
    · omega
    · omega
    · omega
    · omega
    · omega
    · exact ⟨g1, g2, g3, g4, g5, rest, rfl⟩
  obtain ⟨g1, g2, g3, g4, g5, rest, hl⟩ := h5
  simp only [Concise, hl]

/-- C10 witness at a concrete overlong input. -/
theorem C10_witness :
    4 < (goSplit ':' (packagingSplit "a:b:c:d:e@war").2).length ∧
    Concise "a:b:c:d:e@war" = ⟨"", "", "", "", (packagingSplit "a:b:c:d:e@war").1⟩ :=
  ⟨by decide, C10_overlong_input_drops_fields "a:b:c:d:e@war" (by decide)⟩

/- ## C5, C7: projector and fetch loop -/

/-- A left fold that appends one image per element is a map. -/
theorem foldl_push {α β : Type} (F : α → β) :
    ∀ (l : List α) (acc : List β),
      l.foldl (fun ls x => ls ++ [F x]) acc = acc ++ l.map F := by
  intro l
  induction l with
  | nil => intro acc; simp
  | cons x xs ih => intro acc; simp [List.foldl_cons, ih]

/-- The middle fold of locations flattens the links of every hit in order. -/
theorem locations_hits_foldl (inst : NexusInstance) (a : ArtifactGroup) :
    ∀ (hits : List ArtifactHit) (acc : List Fqa),
      hits.foldl
        (fun ls hit =>
          hit.ArtifactLinks.foldl (fun ls2 link => ls2 ++ [linkFqa inst a hit link]) ls)
        acc
      = acc ++ hits.flatMap (fun hit => hit.ArtifactLinks.map (linkFqa inst a hit)) := by
  intro hits
  induction hits with
  | nil => intro acc; simp
  | cons hit hs ih =>
    intro acc
    rw [List.foldl_cons, foldl_push (linkFqa inst a hit), ih]
    simp [List.flatMap_cons, List.append_assoc]

/-- locations equals the nested flattening of groups, hits and links, in
nesting order. -/
theorem locations_flat (res : searchNGResponse) (inst : NexusInstance) :
    locations res inst =
      res.Artifacts.flatMap (fun a =>
        a.ArtifactHits.flatMap (fun hit =>
          hit.ArtifactLinks.map (linkFqa inst a hit))) := by
  have main : ∀ (l : List ArtifactGroup) (acc : List Fqa),
      l.foldl
        (fun ls a =>
          a.ArtifactHits.foldl
            (fun ls2 hit =>
              hit.ArtifactLinks.foldl (fun ls3 link => ls3 ++ [linkFqa inst a hit link]) ls2)
            ls)
        acc
      = acc ++ l.flatMap (fun a =>
          a.ArtifactHits.flatMap (fun hit =>
            hit.ArtifactLinks.map (linkFqa inst a hit))) := by
    intro l
    induction l with
    | nil => intro acc; simp
    | cons a as ih =>
      intro acc
      rw [List.foldl_cons, locations_hits_foldl inst a, ih]
      simp [List.flatMap_cons, List.append_assoc]
  have h := main res.Artifacts []
  simpa [locations] using h

/-- C5: the projector emits exactly one Fqa per (group, hit, link) triple,
combining the group coordinates with the link classifier and packaging and
the hit repository id, in nesting order (groups outermost, then hits, then
links); consequently its length is the sum over groups and hits of the link
counts, so empty hit or link lists contribute nothing and 2 hits of 2 links
each contribute 4. -/
theorem C5_projector_flattens (res : searchNGResponse) (inst : NexusInstance) :
    locations res inst =
      res.Artifacts.flatMap (fun a =>
        a.ArtifactHits.flatMap (fun hit =>
          hit.ArtifactLinks.map (linkFqa inst a hit))) ∧
    (locations res inst).length =
      (res.Artifacts.map (fun a =>
        (a.ArtifactHits.map (fun hit => hit.ArtifactLinks.length)).sum)).sum := by
  refine ⟨locations_flat res inst, ?_⟩
  rw [locations_flat res inst, List.length_flatMap]
  refine congrArg List.sum (List.map_congr_left ?_)
  intro a _
  simp [Function.comp_def, List.length_flatMap, List.length_map]

/-- Every entry the fetch loop acts on has non-pom packaging: the loop's
first statement skips pom entries before any URL or action is produced. -/
theorem fetchPlan_acc (b : Bool) :
    ∀ (ls : List Fqa) (acc : List (Fqa × String)) (x : Fqa × String),
      x ∈ ls.foldl
        (fun acc a =>
          if a.toGav.Packaging = "pom" then acc
          else if b then acc ++ [(a, fetchURL a)]
          else acc)
        acc →
      x ∈ acc ∨ x.1.toGav.Packaging ≠ "pom" := by
  intro ls
  induction ls with
  | nil => intro acc x hx; exact Or.inl hx
  | cons a as ih =>
    intro acc x hx
    rw [List.foldl_cons] at hx
    by_cases hp : a.toGav.Packaging = "pom"
    · rw [if_pos hp] at hx
      exact ih acc x hx
    · rw [if_neg hp] at hx
      cases b with
      | false =>
        simp only [if_neg Bool.false_ne_true] at hx
        exact ih acc x hx
      | true =>
        simp only [if_pos rfl] at hx
        rcases ih (acc ++ [(a, fetchURL a)]) x hx with h | h
        · rcases List.mem_append.mp h with h2 | h2
          · exact Or.inl h2
          · right
            rw [List.mem_singleton.mp h2]
            exact hp
        · exact Or.inr h

/-- Membership in the fetch plan implies non-pom packaging. -/
theorem fetchPlan_no_pom (b : Bool) (ls : List Fqa) (x : Fqa × String)
    (hx : x ∈ fetchPlan b ls) : x.1.toGav.Packaging ≠ "pom" := by
  have h := fetchPlan_acc b ls [] x (by simpa [fetchPlan] using hx)
  simpa using h

/-- C7: a search hit link with packaging pom still appears in the projected
list (the projector does not filter), but the fetch loop never produces a
fetch action for it: no entry of the fetch plan is that Fqa, for either
value of the fetch flag. -/
theorem C7_pom_projected_never_fetched (res : searchNGResponse) (inst : NexusInstance)
    (a : ArtifactGroup) (hit : ArtifactHit) (link : ArtifactLink)
    (ha : a ∈ res.Artifacts) (hh : hit ∈ a.ArtifactHits) (hl : link ∈ hit.ArtifactLinks)
    (hp : link.Packaging = "pom") :
    linkFqa inst a hit link ∈ locations res inst ∧
    ∀ (b : Bool) (x : Fqa × String),
      x ∈ fetchPlan b (locations res inst) → x.1 ≠ linkFqa inst a hit link := by
  constructor
  · rw [locations_flat res inst]
    refine List.mem_flatMap.mpr ⟨a, ha, ?_⟩
    refine List.mem_flatMap.mpr ⟨hit, hh, ?_⟩
    exact List.mem_map.mpr ⟨link, hl, rfl⟩
  · intro b x hx heq
    apply fetchPlan_no_pom b (locations res inst) x hx
    rw [heq]
    exact hp

/-- Concrete search response for the C7 witness. -/
def wInst : NexusInstance := ⟨"http", "localhost", "8081", "nexus/", "admin", "admin123"⟩

/-- Concrete pom link for the C7 witness. -/
def wLink : ArtifactLink := ⟨"pom", ""⟩

/-- Concrete hit for the C7 witness. -/
def wHit : ArtifactHit := ⟨"releases", [wLink]⟩

/-- Concrete artifact group for the C7 witness. -/
def wGroup : ArtifactGroup := ⟨"g", "a", "1.0", [wHit]⟩

/-- Concrete response for the C7 witness. -/
def wRes : searchNGResponse := ⟨1, 0, 1, false, [wGroup]⟩

/-- C7 witness at the concrete one-pom-link response. -/
theorem C7_witness :
    (wGroup ∈ wRes.Artifacts ∧ wHit ∈ wGroup.ArtifactHits ∧
     wLink ∈ wHit.ArtifactLinks ∧ wLink.Packaging = "pom") ∧
    (linkFqa wInst wGroup wHit wLink ∈ locations wRes wInst ∧
     ∀ (b : Bool) (x : Fqa × String),
       x ∈ fetchPlan b (locations wRes wInst) → x.1 ≠ linkFqa wInst wGroup wHit wLink) :=
  ⟨⟨by decide, by decide, by decide, by decide⟩,
   C7_pom_projected_never_fetched wRes wInst wGroup wHit wLink
     (by decide) (by decide) (by decide) (by decide)⟩

/- ## C6: default layout -/

/-- C6 counterexample: for the empty Group the claim's universal
no-leading-slash property fails: the layout of an empty-group coordinate
begins with the slash separating the (empty) group from the artifact. -/
theorem C6_counterexample :
    (Gav.DefaultLayout ⟨"", "a", "v", "", ""⟩).data.head? = some '/' := by decide

/-- C6 (amended): DefaultLayout is the group with every dot replaced by a
slash, followed by slash, artifact, slash, version, slash, filename; and it
does not begin with a slash provided the Group is non-empty and its first
character is neither a dot nor a slash (an empty group, or a group starting
with a dot or slash, yields a leading slash). -/
theorem C6_amended_layout_no_leading_slash (g : Gav)
    (h1 : g.Group.data ≠ [])
    (h2 : g.Group.data.head? ≠ some '.')
    (h3 : g.Group.data.head? ≠ some '/') :
    Gav.DefaultLayout g =
      replaceDotSlash g.Group ++ "/" ++ g.Artifact ++ "/" ++ g.Version ++ "/" ++ g.Filename ∧
    (Gav.DefaultLayout g).data.head? ≠ some '/' := by
  refine ⟨rfl, ?_⟩
  rcases hG : g.Group.data with _ | ⟨c, cs⟩
  · exact absurd hG h1
  · rw [hG] at h2 h3
    simp only [List.head?_cons, ne_eq, Option.some.injEq] at h2 h3
    simp only [Gav.DefaultLayout, replaceDotSlash, String.data_append, hG,
      List.map_cons, List.cons_append, List.head?_cons, ne_eq, Option.some.injEq]
    rw [if_neg h2]
    exact h3

/-- C6 witness: a dotted-free single-letter group satisfies the amended
precondition and produces the layout g/a/v/a-v.jar with no leading slash. -/
theorem C6_witness :
    (("g" : String).data ≠ [] ∧ ("g" : String).data.head? ≠ some '.' ∧
     ("g" : String).data.head? ≠ some '/') ∧
    (Gav.DefaultLayout ⟨"g", "a", "v", "", ""⟩ =
       replaceDotSlash "g" ++ "/" ++ "a" ++ "/" ++ "v" ++ "/" ++
         Gav.Filename ⟨"g", "a", "v", "", ""⟩ ∧
     (Gav.DefaultLayout ⟨"g", "a", "v", "", ""⟩).data.head? ≠ some '/') :=
  ⟨⟨by decide, by decide, by decide⟩,
   C6_amended_layout_no_leading_slash ⟨"g", "a", "v", "", ""⟩
     (by decide) (by decide) (by decide)⟩

/- ## Concise notation characterization -/

/-- Character list of the empty string literal. -/
theorem data_empty : ("" : String).data = [] := rfl

/-- Character list of the colon literal. -/
theorem data_colon : (":" : String).data = [':'] := rfl

/-- Character list of the at-sign literal. -/
theorem data_at : ("@" : String).data = ['@'] := rfl

/-- The character list of the concise notation: group, then the optional
separators and fields in the order the Go method writes them. -/
theorem conciseNotationOf_data (g : Gav) :
    (Gav.conciseNotationOf g).data =
      g.Group.data ++
      ((if 0 < g.Artifact.length ∨ 0 < g.Version.length ∨ 0 < g.Classifier.length
        then [':'] else []) ++
       (g.Artifact.data ++
        ((if 0 < g.Version.length ∨ 0 < g.Classifier.length then [':'] else []) ++
         (g.Version.data ++
          ((if 0 < g.Classifier.length then ':' :: g.Classifier.data else []) ++
           (if 0 < g.Packaging.length then '@' :: g.Packaging.data else [])))))) := by
  simp only [Gav.conciseNotationOf, write_guard]
  split_ifs <;>
    simp [String.data_append, data_empty, data_colon, data_at, List.append_assoc]

/- ## C9: filename purity -/

/-- A list starts with itself. -/
theorem startsWithL_self_append (p r : List Char) : startsWithL p (p ++ r) = true := by
  induction p with
  | nil => rfl
  | cons c cs ih => simp [startsWithL, ih]

/-- C9: on a Gav with empty Packaging, Filename produces a name with the
jar default, i.e. a string ending in .jar, while the coordinate itself is
untouched: its Packaging is still empty and its concise notation carries no
at-sign (the jar default exists only inside the filename computation; in
the embedding Filename is a pure function, so calling it twice trivially
yields the same string). -/
theorem C9_filename_does_not_mutate (g : Gav) (hp : g.Packaging = "")
    (hG : '@' ∉ g.Group.data) (hA : '@' ∉ g.Artifact.data)
    (hV : '@' ∉ g.Version.data) (hC : '@' ∉ g.Classifier.data) :
    hasSuffix g.Filename ".jar" = true ∧
    g.Packaging = "" ∧
    '@' ∉ (Gav.conciseNotationOf g).data := by
  refine ⟨?_, hp, ?_⟩
  · unfold Gav.Filename
    rw [if_pos hp]
    simp only [hasSuffix, String.data_append, List.reverse_append]
    exact startsWithL_self_append (".jar".data.reverse) _
  · have hplen : ¬ 0 < g.Packaging.length := by
      rw [hp]
      simp
    rw [conciseNotationOf_data g, if_neg hplen]
    split_ifs <;>
      simp [List.mem_append, List.mem_cons, hG, hA, hV, hC]

/-- C9 witness at a concrete coordinate with empty packaging. -/
theorem C9_witness :
    ((⟨"g", "a", "v", "c", ""⟩ : Gav).Packaging = "" ∧
     '@' ∉ (⟨"g", "a", "v", "c", ""⟩ : Gav).Group.data ∧
     '@' ∉ (⟨"g", "a", "v", "c", ""⟩ : Gav).Artifact.data ∧
     '@' ∉ (⟨"g", "a", "v", "c", ""⟩ : Gav).Version.data ∧
     '@' ∉ (⟨"g", "a", "v", "c", ""⟩ : Gav).Classifier.data) ∧
    (hasSuffix (Gav.Filename ⟨"g", "a", "v", "c", ""⟩) ".jar" = true ∧
     (⟨"g", "a", "v", "c", ""⟩ : Gav).Packaging = "" ∧
     '@' ∉ (Gav.conciseNotationOf ⟨"g", "a", "v", "c", ""⟩).data) :=
  ⟨⟨by decide, by decide, by decide, by decide, by decide⟩,
   C9_filename_does_not_mutate ⟨"g", "a", "v", "c", ""⟩
     (by decide) (by decide) (by decide) (by decide) (by decide)⟩

/- ## C3: round trip -/

/-- Positive length of a string means a non-empty character list. -/
theorem pos_len (s : String) : 0 < s.length ↔ s.data ≠ [] := List.length_pos

/-- A string with an empty character list is the empty string. -/
theorem data_nil (s : String) (h : s.data = []) : s = "" := by
  cases s with
  | mk m =>
    cases m with
    | nil => rfl
    | cons c cs => simp at h

/-- packagingSplit on an at-free string keeps the input and no packaging. -/
theorem packagingSplit_noAt (s : String) (h : '@' ∉ s.data) :
    packagingSplit s = ("", s) := by
  unfold packagingSplit
  rw [goSplit_no_sep '@' s h]

/-- packagingSplit around the first at-sign of an at-free prefix and an
at-free remainder. -/
theorem packagingSplit_at (pre pk : List Char) (hpre : '@' ∉ pre) (hpk : '@' ∉ pk) :
    packagingSplit (String.mk (pre ++ '@' :: pk)) = (String.mk pk, String.mk pre) := by
  unfold packagingSplit goSplit
  rw [show (String.mk (pre ++ '@' :: pk)).data = pre ++ '@' :: pk from rfl,
      splitOnChar_append '@' pre pk hpre, splitOnChar_no_sep '@' pk hpk]
  rfl

/-- packagingSplit of a string whose data is an at-free prefix followed by
an optional at-sign and packaging (empty packaging means no at-sign at all). -/
theorem packagingSplit_pre (n : String) (pre : List Char) (P : String)
    (hnd : n.data = pre ++ (if 0 < P.length then '@' :: P.data else []))
    (hpreAt : '@' ∉ pre) (hPa : '@' ∉ P.data) :
    packagingSplit n = (P, String.mk pre) := by
  by_cases hp : 0 < P.length
  · rw [if_pos hp] at hnd
    have hn : n = String.mk (pre ++ '@' :: P.data) := by rw [← hnd, mk_data]
    rw [hn, packagingSplit_at pre P.data hpreAt hPa, mk_data]
  · rw [if_neg hp] at hnd
    have hP0 : P = "" := by
      rcases hq : P.data with _ | ⟨c, cs⟩
      · exact data_nil P hq
      · exact absurd (pos_len P |>.mpr (by rw [hq]; simp)) hp
    have hnd2 : n.data = pre := by rw [hnd, List.append_nil]
    have hn : n = String.mk pre := by rw [← hnd2, mk_data]
    rw [hP0, ← hn, packagingSplit_noAt n (by rw [hnd2]; exact hpreAt), hn]

/-- Concise of a string splitting into a single colon-free segment. -/
theorem Concise_shape1 (s pk r : String) (G : List Char)
    (hps : packagingSplit s = (pk, r))
    (hr : r.data = G) (hG : ':' ∉ G) :
    Concise s = ⟨String.mk G, "", "", "", pk⟩ := by
  have hsplit : goSplit ':' (pk, r).2 = [String.mk G] := by
    unfold goSplit
    rw [show (pk, r).2 = r from rfl, hr, splitOnChar_no_sep ':' G hG]
    rfl
  unfold Concise
  rw [hps]
  simp only [hsplit]

/-- Concise of a string splitting into two colon-free segments. -/
theorem Concise_shape2 (s pk r : String) (G A : List Char)
    (hps : packagingSplit s = (pk, r))
    (hr : r.data = G ++ ':' :: A) (hG : ':' ∉ G) (hA : ':' ∉ A) :
    Concise s = ⟨String.mk G, String.mk A, "", "", pk⟩ := by
  have hsplit : goSplit ':' (pk, r).2 = [String.mk G, String.mk A] := by
    unfold goSplit
    rw [show (pk, r).2 = r from rfl, hr, splitOnChar_append ':' G _ hG,
        splitOnChar_no_sep ':' A hA]
    rfl
  unfold Concise
  rw [hps]
  simp only [hsplit]

/-- Concise of a string splitting into three colon-free segments. -/
theorem Concise_shape3 (s pk r : String) (G A V : List Char)
    (hps : packagingSplit s = (pk, r))
    (hr : r.data = G ++ ':' :: (A ++ ':' :: V))
    (hG : ':' ∉ G) (hA : ':' ∉ A) (hV : ':' ∉ V) :
    Concise s = ⟨String.mk G, String.mk A, String.mk V, "", pk⟩ := by
  have hsplit : goSplit ':' (pk, r).2 = [String.mk G, String.mk A, String.mk V] := by
    unfold goSplit
    rw [show (pk, r).2 = r from rfl, hr, splitOnChar_append ':' G _ hG,
        splitOnChar_append ':' A _ hA, splitOnChar_no_sep ':' V hV]
    rfl
  unfold Concise
  rw [hps]
  simp only [hsplit]

/-- Concise of a string splitting into four colon-free segments. -/
theorem Concise_shape4 (s pk r : String) (G A V C : List Char)
    (hps : packagingSplit s = (pk, r))
    (hr : r.data = G ++ ':' :: (A ++ ':' :: (V ++ ':' :: C)))
    (hG : ':' ∉ G) (hA : ':' ∉ A) (hV : ':' ∉ V) (hC : ':' ∉ C) :
    Concise s = ⟨String.mk G, String.mk A, String.mk V, String.mk C, pk⟩ := by
  have hsplit : goSplit ':' (pk, r).2 =
      [String.mk G, String.mk A, String.mk V, String.mk C] := by
    unfold goSplit
    rw [show (pk, r).2 = r from rfl, hr, splitOnChar_append ':' G _ hG,
        splitOnChar_append ':' A _ hA, splitOnChar_append ':' V _ hV,
        splitOnChar_no_sep ':' C hC]
    rfl
  unfold Concise
  rw [hps]
  simp only [hsplit]

/-- C3: for every Gav whose five fields are free of the separator characters
colon and at-sign, parsing the concise notation is a left inverse of
rendering it: Concise applied to the concise notation returns the original
coordinate. -/
theorem C3_round_trip (g : Gav)
    (hG : sepFree g.Group) (hA : sepFree g.Artifact) (hV : sepFree g.Version)
    (hC : sepFree g.Classifier) (hP : sepFree g.Packaging) :
    Concise (Gav.conciseNotationOf g) = g := by
  obtain ⟨hGc, hGa⟩ := hG
  obtain ⟨hAc, hAa⟩ := hA
  obtain ⟨hVc, hVa⟩ := hV
  obtain ⟨hCc, hCa⟩ := hC
  obtain ⟨hPc, hPa⟩ := hP
  have hat : ('@' : Char) ≠ ':' := by decide
  by_cases hCe : g.Classifier.data = []
  · by_cases hVe : g.Version.data = []
    · by_cases hAe : g.Artifact.data = []
      · -- one segment: only the group
        have hc1 : ¬ (0 < g.Artifact.length ∨ 0 < g.Version.length ∨
            0 < g.Classifier.length) := by
          simp [pos_len, hAe, hVe, hCe]
        have hc2 : ¬ (0 < g.Version.length ∨ 0 < g.Classifier.length) := by
          simp [pos_len, hVe, hCe]
        have hc3 : ¬ 0 < g.Classifier.length := by simp [pos_len, hCe]
        have hnd : (Gav.conciseNotationOf g).data =
            g.Group.data ++
              (if 0 < g.Packaging.length then '@' :: g.Packaging.data else []) := by
          rw [conciseNotationOf_data g, if_neg hc1, if_neg hc2, if_neg hc3]
          simp [hAe, hVe]
        have hps := packagingSplit_pre _ _ _ hnd hGa hPa
        rw [Concise_shape1 _ _ _ _ hps rfl hGc, mk_data]
        show (⟨g.Group, "", "", "", g.Packaging⟩ : Gav) =
          ⟨g.Group, g.Artifact, g.Version, g.Classifier, g.Packaging⟩
        rw [data_nil _ hAe, data_nil _ hVe, data_nil _ hCe]
      · -- two segments: group and artifact
        have hc1 : 0 < g.Artifact.length ∨ 0 < g.Version.length ∨
            0 < g.Classifier.length := Or.inl ((pos_len _).mpr hAe)
        have hc2 : ¬ (0 < g.Version.length ∨ 0 < g.Classifier.length) := by
          simp [pos_len, hVe, hCe]
        have hc3 : ¬ 0 < g.Classifier.length := by simp [pos_len, hCe]
        have hnd : (Gav.conciseNotationOf g).data =
            (g.Group.data ++ ':' :: g.Artifact.data) ++
              (if 0 < g.Packaging.length then '@' :: g.Packaging.data else []) := by
          rw [conciseNotationOf_data g, if_pos hc1, if_neg hc2, if_neg hc3]
          simp [hVe, List.append_assoc]
        have hpreAt : '@' ∉ g.Group.data ++ ':' :: g.Artifact.data := by
          intro hmem
          rcases List.mem_append.mp hmem with h | h
          · exact hGa h
          · rcases List.mem_cons.mp h with h | h
            · exact hat h
            · exact hAa h
        have hps := packagingSplit_pre _ _ _ hnd hpreAt hPa
        rw [Concise_shape2 _ _ _ _ _ hps rfl hGc hAc, mk_data, mk_data]
        show (⟨g.Group, g.Artifact, "", "", g.Packaging⟩ : Gav) =
          ⟨g.Group, g.Artifact, g.Version, g.Classifier, g.Packaging⟩
        rw [data_nil _ hVe, data_nil _ hCe]
    · -- three segments: group, artifact, version
      have hc1 : 0 < g.Artifact.length ∨ 0 < g.Version.length ∨
          0 < g.Classifier.length := Or.inr (Or.inl ((pos_len _).mpr hVe))
      have hc2 : 0 < g.Version.length ∨ 0 < g.Classifier.length :=
        Or.inl ((pos_len _).mpr hVe)
      have hc3 : ¬ 0 < g.Classifier.length := by simp [pos_len, hCe]
      have hnd : (Gav.conciseNotationOf g).data =
          (g.Group.data ++ ':' :: (g.Artifact.data ++ ':' :: g.Version.data)) ++
            (if 0 < g.Packaging.length then '@' :: g.Packaging.data else []) := by
        rw [conciseNotationOf_data g, if_pos hc1, if_pos hc2, if_neg hc3]
        simp [List.append_assoc]
      have hpreAt : '@' ∉ g.Group.data ++ ':' ::
          (g.Artifact.data ++ ':' :: g.Version.data) := by
        intro hmem
        rcases List.mem_append.mp hmem with h | h
        · exact hGa h
        · rcases List.mem_cons.mp h with h | h
          · exact hat h
          · rcases List.mem_append.mp h with h | h
            · exact hAa h
            · rcases List.mem_cons.mp h with h | h
              · exact hat h
              · exact hVa h
      have hps := packagingSplit_pre _ _ _ hnd hpreAt hPa
      rw [Concise_shape3 _ _ _ _ _ _ hps rfl hGc hAc hVc, mk_data, mk_data, mk_data]
      show (⟨g.Group, g.Artifact, g.Version, "", g.Packaging⟩ : Gav) =
        ⟨g.Group, g.Artifact, g.Version, g.Classifier, g.Packaging⟩
      rw [data_nil _ hCe]
  · -- four segments: group, artifact, version, classifier
    have hc1 : 0 < g.Artifact.length ∨ 0 < g.Version.length ∨
        0 < g.Classifier.length := Or.inr (Or.inr ((pos_len _).mpr hCe))
    have hc2 : 0 < g.Version.length ∨ 0 < g.Classifier.length :=
      Or.inr ((pos_len _).mpr hCe)
    have hc3 : 0 < g.Classifier.length := (pos_len _).mpr hCe
    have hnd : (Gav.conciseNotationOf g).data =
        (g.Group.data ++ ':' :: (g.Artifact.data ++ ':' ::
            (g.Version.data ++ ':' :: g.Classifier.data))) ++
          (if 0 < g.Packaging.length then '@' :: g.Packaging.data else []) := by
      rw [conciseNotationOf_data g, if_pos hc1, if_pos hc2, if_pos hc3]
      simp [List.append_assoc]
    have hpreAt : '@' ∉ g.Group.data ++ ':' :: (g.Artifact.data ++ ':' ::
        (g.Version.data ++ ':' :: g.Classifier.data)) := by
      intro hmem
      rcases List.mem_append.mp hmem with h | h
      · exact hGa h
      · rcases List.mem_cons.mp h with h | h
        · exact hat h
        · rcases List.mem_append.mp h with h | h
          · exact hAa h
          · rcases List.mem_cons.mp h with h | h
            · exact hat h
            · rcases List.mem_append.mp h with h | h
              · exact hVa h
              · rcases List.mem_cons.mp h with h | h
                · exact hat h
                · exact hCa h
    have hps := packagingSplit_pre _ _ _ hnd hpreAt hPa
    rw [Concise_shape4 _ _ _ _ _ _ _ hps rfl hGc hAc hVc hCc,
      mk_data, mk_data, mk_data, mk_data]

/-- C3 witness at the fully-populated concrete coordinate. -/
theorem C3_witness :
    (sepFree (⟨"g", "a", "v", "c", "p"⟩ : Gav).Group ∧
     sepFree (⟨"g", "a", "v", "c", "p"⟩ : Gav).Artifact ∧
     sepFree (⟨"g", "a", "v", "c", "p"⟩ : Gav).Version ∧
     sepFree (⟨"g", "a", "v", "c", "p"⟩ : Gav).Classifier ∧
     sepFree (⟨"g", "a", "v", "c", "p"⟩ : Gav).Packaging) ∧
    Concise (Gav.conciseNotationOf ⟨"g", "a", "v", "c", "p"⟩) =
      ⟨"g", "a", "v", "c", "p"⟩ :=
  ⟨⟨by decide, by decide, by decide, by decide, by decide⟩,
   C3_round_trip ⟨"g", "a", "v", "c", "p"⟩
     (by decide) (by decide) (by decide) (by decide) (by decide)⟩
